import Mathlib

/-!
Verification of the xflags request-scheduling and cross-context coordination
engine: a shallow embedding of the cache store, the cross-tab request
deduplicator, the rate-limit coordinator (extension/background/service-worker.js),
the priority scheduler (the ActiveFetcher content script) and the
content-script cache client (extension/utils/cache.js), with theorems settling
the specified properties.

Conventions of the embedding:
* JavaScript `Date.now()` timestamps and millisecond durations are `Int`.
* JavaScript `Map` objects keyed by username are total functions
  `String → Option v`; `Map.delete` writes `none`.
* Promise continuations are identified by numeric ids; resolving a
  continuation is an explicit event in the output event list of a step.
* DOM state (hover, viewport membership, document.contains) is an
  environment of boolean predicates supplied to each step.
-/

namespace Xflags

/-! ### Cache store: UnifiedCache (service-worker.js lines 57-278) -/

/-- One in-memory cache entry: `{location, accurate, cachedAt}`
(service-worker.js line 59). -/
structure CacheEntry where
  location : String
  accurate : Bool
  cachedAt : Int
deriving Repr, DecidableEq

/-- Milliseconds in a day, the factor `24 * 60 * 60 * 1000` used by `setTTL`. -/
def msPerDay : Int := 24 * 60 * 60 * 1000

/-- `DEFAULTS.CACHE_TTL = 30 * 24 * 60 * 60 * 1000` (service-worker.js line 48). -/
def DEFAULT_CACHE_TTL : Int := 30 * msPerDay

/-- The central cache of the service worker: the `memoryCache` map and the
process-wide `ttl` setting (service-worker.js lines 57-73). -/
structure UnifiedCache where
  memoryCache : String → Option CacheEntry
  ttl : Int

/-- An empty `UnifiedCache` with the default TTL (the constructor). -/
def UnifiedCache.init : UnifiedCache :=
  { memoryCache := fun _ => none, ttl := DEFAULT_CACHE_TTL }

/-- `UnifiedCache.has(username)` (service-worker.js lines 124-139): a lookup
that also evicts an expired entry.  Returns the boolean result and the
possibly mutated cache. -/
def UnifiedCache.has (c : UnifiedCache) (username : String) (now : Int) :
    Bool × UnifiedCache :=
  match c.memoryCache username with
  | none => (false, c)
  | some data =>
      if data.cachedAt + c.ttl ≤ now then
        (false, { c with
          memoryCache := fun k => if k = username then none else c.memoryCache k })
      else
        (true, c)

/-- `UnifiedCache.get(username)` (service-worker.js lines 146-156): calls
`has` (evicting when expired) and returns `{location, accurate}` on a hit. -/
def UnifiedCache.get (c : UnifiedCache) (username : String) (now : Int) :
    Option (String × Bool) × UnifiedCache :=
  let hasR := c.has username now
  if hasR.1 then
    match hasR.2.memoryCache username with
    | some data => (some (data.location, data.accurate), hasR.2)
    | none => (none, hasR.2)
  else
    (none, hasR.2)

/-- `UnifiedCache.set(username, location, accurate)` (service-worker.js
lines 164-172): stores the entry with `cachedAt = Date.now()`. -/
def UnifiedCache.set (c : UnifiedCache) (username location : String)
    (accurate : Bool) (now : Int) : UnifiedCache :=
  { c with
    memoryCache := fun k =>
      if k = username then some ⟨location, accurate, now⟩ else c.memoryCache k }

/-- `UnifiedCache.setTTL(days)` (service-worker.js lines 259-269): sets
`ttl = days * 24 * 60 * 60 * 1000` with no range validation. -/
def UnifiedCache.setTTL (c : UnifiedCache) (days : Int) : UnifiedCache :=
  { c with ttl := days * msPerDay }

/-- A `{ success: ... }` message response of the service worker. -/
structure OkResponse where
  success : Bool
deriving Repr, DecidableEq

/-- The `CACHE_SET_TTL` case of `handleMessage` (service-worker.js
lines 735-737): applies `setTTL` and answers `{ success: true }`. -/
def handleCacheSetTTL (c : UnifiedCache) (days : Int) : UnifiedCache × OkResponse :=
  (c.setTTL days, ⟨true⟩)

/-- The shape of one persisted cache record:
`{location, accurate, expiry, cachedAt}` (service-worker.js lines 209-214).
A `location` of JavaScript `null` is `none`. -/
structure PersistedEntry where
  location : Option String
  accurate : Bool
  expiry : Int
  cachedAt : Int
deriving Repr, DecidableEq

/-- The filter of `UnifiedCache.load` (service-worker.js line 100): a stored
record is loaded only when `data.expiry && data.expiry > now && data.location !== null`. -/
def loadKeeps (data : PersistedEntry) (now : Int) : Bool :=
  data.expiry != 0 && decide (data.expiry > now) && data.location != none

/-! ### Cache store: CountryCache (extension/utils/cache.js) -/

/-- The content-script cache client state: local `memoryCache` and `ttl`
(cache.js). -/
structure CountryCache where
  memoryCache : String → Option CacheEntry
  ttl : Int

/-- `CountryCache.get(username)` (cache.js lines 232-247): returns the entry
data, deleting it and answering `undefined` (here `none`) when
`cachedAt + ttl ≤ now`. -/
def CountryCache.get (c : CountryCache) (username : String) (now : Int) :
    Option (String × Bool) × CountryCache :=
  match c.memoryCache username with
  | none => (none, c)
  | some data =>
      if data.cachedAt + c.ttl ≤ now then
        (none, { c with
          memoryCache := fun k => if k = username then none else c.memoryCache k })
      else
        (some (data.location, data.accurate), c)

/-- `CountryCache.set(username, locationData, accurate)` (cache.js
lines 292-298): writes the local entry with `cachedAt = Date.now()`. -/
def CountryCache.set (c : CountryCache) (username location : String)
    (accurate : Bool) (now : Int) : CountryCache :=
  { c with
    memoryCache := fun k =>
      if k = username then some ⟨location, accurate, now⟩ else c.memoryCache k }

/-- `CountryCache.setTTL(days)` (cache.js lines 365-383): sets
`ttl = days * 24 * 60 * 60 * 1000` with no range validation. -/
def CountryCache.setTTL (c : CountryCache) (days : Int) : CountryCache :=
  { c with ttl := days * msPerDay }

/-! ### RequestDeduplicator (service-worker.js lines 284-414) -/

/-- A fetch result `{location, accurate}` reported back on `REQUEST_COMPLETE`. -/
structure FetchResult where
  location : String
  accurate : Bool
deriving Repr, DecidableEq

/-- The cross-tab deduplicator: `inFlightRequests` maps a username to the
ordered list of waiting continuations (identified here by tab id),
`requestStartTimes` to the registration start time; `requestTimeout` is
30000 ms (service-worker.js lines 284-304). -/
structure RequestDeduplicator where
  inFlightRequests : String → Option (List Nat)
  requestStartTimes : String → Option Int
  requestTimeout : Int

/-- An empty deduplicator with the 30 s timeout (the constructor). -/
def RequestDeduplicator.init : RequestDeduplicator :=
  { inFlightRequests := fun _ => none
    requestStartTimes := fun _ => none
    requestTimeout := 30000 }

/-- An observable resolution: waiter `tabId` for `username` receives `result`. -/
inductive SWEvent where
  | resolvedWaiter (username : String) (tabId : Nat) (result : Option FetchResult)
deriving Repr, DecidableEq

/-- `completeRequest(username, result)` (service-worker.js lines 388-405):
resolves every registered waiter with `result`, then deletes the
registration and its start time. -/
def RequestDeduplicator.completeRequest (d : RequestDeduplicator)
    (username : String) (result : Option FetchResult) :
    RequestDeduplicator × List SWEvent :=
  let events :=
    match d.inFlightRequests username with
    | some waiters => waiters.map fun t => SWEvent.resolvedWaiter username t result
    | none => []
  ({ d with
      inFlightRequests := fun k => if k = username then none else d.inFlightRequests k
      requestStartTimes := fun k => if k = username then none else d.requestStartTimes k },
   events)

/-- `isInFlight(username)` (service-worker.js lines 311-325): a registration
older than `requestTimeout` is cleaned up through `completeRequest(username, null)`
and reported as not in flight.  The JavaScript guard `if (startTime && ...)`
treats a zero start time as falsy, hence the `startTime != 0` conjunct. -/
def RequestDeduplicator.isInFlight (d : RequestDeduplicator) (username : String)
    (now : Int) : Bool × RequestDeduplicator × List SWEvent :=
  match d.inFlightRequests username with
  | none => (false, d, [])
  | some _ =>
      match d.requestStartTimes username with
      | some startTime =>
          if startTime ≠ 0 ∧ now - startTime > d.requestTimeout then
            let r := d.completeRequest username none
            (false, r.1, r.2)
          else
            (true, d, [])
      | none => (true, d, [])

/-- `startRequest(username, tabId)` (service-worker.js lines 376-381): creates
an empty waiter list and records the start time when no registration exists.
The fetching caller itself is not added as a waiter. -/
def RequestDeduplicator.startRequest (d : RequestDeduplicator) (username : String)
    (now : Int) : RequestDeduplicator :=
  match d.inFlightRequests username with
  | some _ => d
  | none =>
      { d with
        inFlightRequests := fun k =>
          if k = username then some [] else d.inFlightRequests k
        requestStartTimes := fun k =>
          if k = username then some now else d.requestStartTimes k }

/-- `waitForRequest(username, tabId)` (service-worker.js lines 359-369):
appends the caller to the waiter list; with no registration it resolves null
immediately (the returned flag is `false` in that degenerate case). -/
def RequestDeduplicator.waitForRequest (d : RequestDeduplicator) (username : String)
    (tabId : Nat) : RequestDeduplicator × Bool :=
  match d.inFlightRequests username with
  | none => (d, false)
  | some ws =>
      ({ d with
          inFlightRequests := fun k =>
            if k = username then some (ws ++ [tabId]) else d.inFlightRequests k },
       true)

/-! ### RateLimitCoordinator (service-worker.js lines 419-463) -/

/-- The shared rate-limit state of the service worker:
`{isRateLimited, rateLimitExpiry, cooldownDuration}` with a 5 minute
cooldown (service-worker.js lines 419-429). -/
structure RateLimitCoordinator where
  isRateLimited : Bool
  rateLimitExpiry : Option Int
  cooldownDuration : Int
deriving Repr, DecidableEq

/-- The freshly constructed coordinator: not limited, 300000 ms cooldown. -/
def RateLimitCoordinator.init : RateLimitCoordinator :=
  { isRateLimited := false, rateLimitExpiry := none, cooldownDuration := 300000 }

/-- `setRateLimited(limited)` (service-worker.js lines 435-445): on `true`
the expiry becomes `Date.now() + cooldownDuration`; on `false` it clears. -/
def RateLimitCoordinator.setRateLimited (r : RateLimitCoordinator) (limited : Bool)
    (now : Int) : RateLimitCoordinator :=
  if limited then
    { r with isRateLimited := true, rateLimitExpiry := some (now + r.cooldownDuration) }
  else
    { r with isRateLimited := false, rateLimitExpiry := none }

/-! ### The coordinator message handler (service-worker.js lines 700-815) -/

/-- The service-worker singletons touched by the request messages. -/
structure SWState where
  cache : UnifiedCache
  dedup : RequestDeduplicator
  rl : RateLimitCoordinator

/-- The response of the `REQUEST_LOCATION` case: a cache hit with its data,
registration as a waiter (resolved later by a completion event), the
degenerate immediate-null wait, or the `shouldFetch` grant. -/
inductive LocResponse where
  | cachedR (data : Option (String × Bool))
  | waitedR
  | waitedNullR
  | shouldFetchR
deriving Repr, DecidableEq

/-- The `REQUEST_LOCATION` case of `handleMessage` (service-worker.js
lines 744-762): consult the cache first, then the in-flight registry
(adding the caller as a waiter), otherwise start a new registration and
grant `shouldFetch`. -/
def handleRequestLocation (s : SWState) (username : String) (tabId : Nat)
    (now : Int) : SWState × LocResponse × List SWEvent :=
  let hasR := s.cache.has username now
  if hasR.1 then
    let getR := hasR.2.get username now
    ({ s with cache := getR.2 }, .cachedR getR.1, [])
  else
    let s1 : SWState := { s with cache := hasR.2 }
    let infR := s1.dedup.isInFlight username now
    if infR.1 then
      let wR := infR.2.1.waitForRequest username tabId
      ({ s1 with dedup := wR.1 },
       if wR.2 then .waitedR else .waitedNullR,
       infR.2.2)
    else
      ({ s1 with dedup := infR.2.1.startRequest username now }, .shouldFetchR, infR.2.2)

/-- The `REQUEST_COMPLETE` case of `handleMessage` (service-worker.js
lines 764-770): writes the cache when `message.data && message.data.location`
is truthy, then completes the registration, resolving all waiters. -/
def handleRequestComplete (s : SWState) (username : String)
    (data : Option FetchResult) (now : Int) : SWState × List SWEvent :=
  let cache1 :=
    match data with
    | some r => if r.location ≠ "" then s.cache.set username r.location r.accurate now else s.cache
    | none => s.cache
  let cR := s.dedup.completeRequest username data
  ({ s with cache := cache1, dedup := cR.1 }, cR.2)

/-- Serialized processing of a list of `REQUEST_LOCATION` calls
`(tabId, now)` for one subject, accumulating responses and events in call
order (the service worker handles one message at a time). -/
def runRequests (s : SWState) (username : String) :
    List (Nat × Int) → SWState × List LocResponse × List SWEvent
  | [] => (s, [], [])
  | call :: calls =>
      let r := handleRequestLocation s username call.1 call.2
      let rest := runRequests r.1 username calls
      (rest.1, r.2.1 :: rest.2.1, r.2.2 ++ rest.2.2)

/-! ### ActiveFetcher: priority queue (unnamed active-fetcher script, second
revision, lines 326-1588 of src/unnamed/part_002) -/

/-- `PRIORITY.VIEWPORT = 1` (lower number = higher priority, lines 332-336). -/
def PRIORITY_VIEWPORT : Int := 1

/-- `PRIORITY.HOVERED = 2` (lines 332-336). -/
def PRIORITY_HOVERED : Int := 2

/-- `PRIORITY.DEFAULT = 3` (lines 332-336). -/
def PRIORITY_DEFAULT : Int := 3

/-- A queued fetch request: `{screenName, resolve, priority, timestamp, element}`.
The resolve continuation is identified by `rid`; a DOM element is an
abstract numeric handle. -/
structure QueueItem where
  screenName : String
  rid : Nat
  priority : Int
  timestamp : Int
  element : Option Nat
deriving Repr, DecidableEq

/-- An entry of the deferred queue: `{screenName, element, addedTime}`. -/
structure DeferredItem where
  screenName : String
  element : Option Nat
  addedTime : Int
deriving Repr, DecidableEq

/-- The `active`, `idle`, `rate-limited` fetcher states. -/
inductive FState where
  | active
  | idle
  | rateLimited
deriving Repr, DecidableEq

/-- The DOM-side environment of the scheduler: hover state per username,
viewport membership and liveness per element handle, and whether the
service-worker cache client is usable. -/
structure FetchEnv where
  hovered : String → Bool
  viewport : Nat → Bool
  inDom : Nat → Bool
  swAvailable : Bool

/-- `#isInViewport(element)` on an optional element handle: a missing or
detached element is never in the viewport (lines 546-564). -/
def elementInViewport (env : FetchEnv) (element : Option Nat) : Bool :=
  match element with
  | none => false
  | some e => env.inDom e && env.viewport e

/-- `#getPriorityForItem(item)` (lines 572-584): the hover check runs first,
then the viewport check, else default. -/
def getPriorityForItem (env : FetchEnv) (item : QueueItem) : Int :=
  if env.hovered item.screenName then PRIORITY_HOVERED
  else if elementInViewport env item.element then PRIORITY_VIEWPORT
  else PRIORITY_DEFAULT

/-- The order imposed by the `#sortQueue` comparator (lines 611-620):
ascending priority number, ties by ascending timestamp. -/
def itemLe (a b : QueueItem) : Prop :=
  a.priority < b.priority ∨ (a.priority = b.priority ∧ a.timestamp ≤ b.timestamp)

instance (a b : QueueItem) : Decidable (itemLe a b) := by
  unfold itemLe
  infer_instance

instance : IsTotal QueueItem itemLe := by
  constructor
  intro a b
  unfold itemLe
  omega

instance : IsTrans QueueItem itemLe := by
  constructor
  intro a b c hab hbc
  unfold itemLe at hab hbc ⊢
  omega

/-- `#sortQueue()` (lines 611-620), modelled by a stable sort under the
comparator order. -/
def sortQueue (q : List QueueItem) : List QueueItem :=
  List.insertionSort itemLe q

/-- The re-assignment pass of `#updateQueuePriorities()` (lines 590-599). -/
def assignPriorities (env : FetchEnv) (q : List QueueItem) : List QueueItem :=
  q.map fun it => { it with priority := getPriorityForItem env it }

/-- `#updateQueuePriorities()` (lines 590-605): recompute every priority and
re-sort only when some priority changed. -/
def updateQueuePriorities (env : FetchEnv) (q : List QueueItem) : List QueueItem :=
  let q1 := assignPriorities env q
  if q1 = q then q else sortQueue q1

/-- The dequeue loop of `#processQueue()` (lines 800-873) with explicit
fuel: each iteration re-evaluates priorities (re-sorting when changed) and
shifts the head of the queue. -/
def serveSteps (env : FetchEnv) : Nat → List QueueItem → List String
  | 0, _ => []
  | _, [] => []
  | Nat.succ fuel, it :: rest =>
    match updateQueuePriorities env (it :: rest) with
    | [] => []
    | next :: remaining => next.screenName :: serveSteps env fuel remaining

/-- The order in which `#processQueue()` (lines 800-873) dequeues subjects
under a fixed environment.  Each iteration removes exactly one item, so a
fuel of the queue length runs the loop to completion; the network request
itself is modelled separately by `makeRequest`. -/
def serveAll (env : FetchEnv) (q : List QueueItem) : List String :=
  serveSteps env q.length q

/-! ### ActiveFetcher: state and observable events -/

/-- The mutable fields of the `ActiveFetcher` that the specified behaviour
depends on (private class fields, lines 371-421). -/
structure Fetcher where
  requestQueue : List QueueItem
  deferredQueue : List DeferredItem
  deferredUsernames : List String
  screenNameToElement : String → Option Nat
  rateLimited : Bool
  processing : Bool
  processingDeferred : Bool
  paused : Bool
  userIdle : Bool
  hasHeaders : Bool
  fetcherState : FState

/-- The freshly constructed fetcher. -/
def Fetcher.init : Fetcher :=
  { requestQueue := []
    deferredQueue := []
    deferredUsernames := []
    screenNameToElement := fun _ => none
    rateLimited := false
    processing := false
    processingDeferred := false
    paused := false
    userIdle := false
    hasHeaders := false
    fetcherState := .active }

/-- Observable effects of fetcher steps: promise resolutions, window
messages, service-worker notifications and actual network requests. -/
inductive FEvent where
  | promiseResolved (rid : Nat) (result : Option FetchResult)
  | postRateLimited (screenName : String)
  | postFetchResponse (screenName : String) (location : Option String) (accurate : Bool)
  | swSetRateLimit (limited : Bool)
  | networkCall (screenName : String)
  | deferredProcessing (screenName : String)
deriving Repr, DecidableEq

/-- `trackElement(screenName, element)` (lines 627-632), restricted to the
screenName-to-element map. -/
def Fetcher.trackElement (s : Fetcher) (screenName : String)
    (element : Option Nat) : Fetcher :=
  match element with
  | none => s
  | some e =>
      { s with screenNameToElement := fun k =>
          if k = screenName then some e else s.screenNameToElement k }

/-- `untrackElement(screenName)` (lines 638-645), restricted to the
screenName-to-element map. -/
def Fetcher.untrackElement (s : Fetcher) (screenName : String) : Fetcher :=
  { s with screenNameToElement := fun k =>
      if k = screenName then none else s.screenNameToElement k }

/-! ### ActiveFetcher: deferred queue (lines 1081-1348) -/

/-- The comparator of `#reprioritizeDeferredQueue()` (lines 1114-1128):
viewport items first, then FIFO by `addedTime`. -/
def deferredLeB (env : FetchEnv) (a b : DeferredItem) : Bool :=
  let aV := elementInViewport env a.element
  let bV := elementInViewport env b.element
  (aV && !bV) || ((aV == bV) && decide (a.addedTime ≤ b.addedTime))

/-- `#reprioritizeDeferredQueue()` (lines 1114-1128). -/
def reprioritizeDeferredQueue (env : FetchEnv) (dq : List DeferredItem) :
    List DeferredItem :=
  List.insertionSort (fun a b => deferredLeB env a b = true) dq

/-- The loop body of `#addToDeferredQueue(items)` (lines 1084-1101): skip a
username already deferred, otherwise push the deferred entry, record the
username, and track the element. -/
def addToDeferredStep (acc : Fetcher) (it : String × Option Nat) (now : Int) : Fetcher :=
  if acc.deferredUsernames.contains it.1 then acc
  else
    let acc1 := { acc with
      deferredQueue := acc.deferredQueue ++ [(⟨it.1, it.2, now⟩ : DeferredItem)]
      deferredUsernames := acc.deferredUsernames ++ [it.1] }
    acc1.trackElement it.1 it.2

/-- `#addToDeferredQueue(items)` (lines 1081-1107): append each item whose
username is not already deferred, record the username, then re-prioritize. -/
def addToDeferredQueue (env : FetchEnv) (s : Fetcher)
    (items : List (String × Option Nat)) (now : Int) : Fetcher :=
  let s1 := items.foldl (fun acc it => addToDeferredStep acc it now) s
  { s1 with deferredQueue := reprioritizeDeferredQueue env s1.deferredQueue }

/-- The entry guard of `#processQueue()` (lines 800-810): the loop refuses
to run while already processing, rate limited, or paused, with an empty
queue, or before headers are captured. -/
def processQueueRuns (s : Fetcher) : Bool :=
  !(s.processing || s.rateLimited || s.paused) && !s.requestQueue.isEmpty && s.hasHeaders

/-- `#pauseDeferredProcessing()` (lines 1274-1281). -/
def pauseDeferredProcessing (s : Fetcher) : Fetcher :=
  { s with processingDeferred := false }

/-- `#startDeferredProcessing()` (lines 1135-1152): begins processing unless
already processing, rate limited, paused, or the deferred queue is empty. -/
def startDeferredProcessing (s : Fetcher) : Fetcher :=
  if s.processingDeferred || s.rateLimited || s.paused then s
  else if s.deferredQueue.isEmpty then s
  else { s with processingDeferred := true }

/-! ### ActiveFetcher: rate-limit handling (lines 1389-1466) -/

/-- `#handleRateLimit()` (lines 1389-1429, up to the cooldown timer): flips
into the rate-limited state, pauses deferred processing, posts a
rate-limited message and resolves null for every queued request, clears the
queue, and moves the queued subjects into the deferred queue. -/
def handleRateLimit (env : FetchEnv) (s : Fetcher) (now : Int) :
    Fetcher × List FEvent :=
  let s1 : Fetcher :=
    pauseDeferredProcessing { s with rateLimited := true, fetcherState := .rateLimited }
  let queuedItems := s.requestQueue.map fun it => (it.screenName, it.element)
  let events := s.requestQueue.flatMap fun it =>
    [FEvent.postRateLimited it.screenName, FEvent.promiseResolved it.rid none]
  let s2 : Fetcher := { s1 with requestQueue := [] }
  (addToDeferredQueue env s2 queuedItems now, events)

/-- The cooldown timer callback installed by `#handleRateLimit()`
(lines 1431-1465): clears the rate limit, notifies the service worker, and
starts deferred processing when the deferred queue is non-empty. -/
def cooldownEnd (env : FetchEnv) (s : Fetcher) : Fetcher × List FEvent :=
  let s1 : Fetcher := { s with
    rateLimited := false
    fetcherState := if s.deferredQueue.length > 0 then FState.active else FState.idle }
  let events := if env.swAvailable then [FEvent.swSetRateLimit false] else []
  let s2 := if s1.deferredQueue.length > 0 then startDeferredProcessing s1 else s1
  (s2, events)

/-! ### ActiveFetcher: fetchUserLocation (lines 702-792) -/

/-- How a `fetchUserLocation` call settles: an immediately resolved value, or
a pending promise identified by `rid` resolved later by the queue loop. -/
inductive FetchOutcome where
  | immediate (result : Option FetchResult)
  | pending (rid : Nat)
deriving Repr, DecidableEq

/-- The possible answers of the service-worker round trip inside
`fetchUserLocation` (lines 720-752): data served from cache or from a
finished cross-tab wait, an explicit `shouldFetch` grant, another tab
already fetching, or the round trip being unavailable or failed (falling
through to the local queue). -/
inductive SWLocResult where
  | cachedOrWaited (data : Option FetchResult)
  | shouldFetch
  | otherTabFetching
  | unavailable
deriving Repr, DecidableEq

/-- The in-place element update of the duplicate branch (lines 709-714):
set `element` on the first queued item for `name` when it had none. -/
def updateFirstElement : List QueueItem → String → Nat → List QueueItem
  | [], _, _ => []
  | it :: rest, name, e =>
      if it.screenName = name then
        (if it.element = none then { it with element := some e } else it) :: rest
      else
        it :: updateFirstElement rest name e

/-- `fetchUserLocation(screenName, element)` (lines 702-792).  The outcome of
the service-worker round trip is supplied as the oracle `sw` (consulted only
when the client is available); `rid` identifies the new promise if one is
created. -/
def fetchUserLocation (env : FetchEnv) (s : Fetcher) (screenName : String)
    (element : Option Nat) (sw : SWLocResult) (now : Int) (rid : Nat) :
    Fetcher × FetchOutcome × List FEvent :=
  if screenName = "" then (s, .immediate none, [])
  else if s.requestQueue.any fun it => it.screenName == screenName then
    -- already in queue: update the element reference if provided and absent
    let s1 :=
      match element with
      | none => s
      | some e =>
          match s.requestQueue.find? fun it => it.screenName == screenName with
          | some existing =>
              if existing.element = none then
                Fetcher.trackElement
                  { s with requestQueue := updateFirstElement s.requestQueue screenName e }
                  screenName (some e)
              else s
          | none => s
    (s1, .immediate none, [])
  else
    match (if env.swAvailable then sw else .unavailable) with
    | .cachedOrWaited data =>
        let events :=
          match data with
          | some r =>
              [FEvent.postFetchResponse screenName
                (if r.location ≠ "" then some r.location else none) r.accurate]
          | none => []
        (s, .immediate data, events)
    | .otherTabFetching => (s, .immediate none, [])
    | _ =>
        -- shouldFetch, or the service worker is unavailable: local queue path
        let s1 := s.trackElement screenName element
        let initialPriority :=
          if env.hovered screenName then PRIORITY_HOVERED
          else if elementInViewport env element then PRIORITY_VIEWPORT
          else PRIORITY_DEFAULT
        let item : QueueItem :=
          { screenName := screenName
            rid := rid
            priority := initialPriority
            timestamp := now
            element :=
              match element with
              | some e => some e
              | none => s1.screenNameToElement screenName }
        let s2 := { s1 with
          requestQueue := sortQueue (s1.requestQueue ++ [item])
          fetcherState := if s1.fetcherState = FState.idle then FState.active else s1.fetcherState }
        (s2, .pending rid, [])

/-! ### ActiveFetcher: transport and response validation (lines 882-1052) -/

/-- The `about_profile` object of the API response. -/
structure AboutProfile where
  account_based_in : Option String
  location_accurate : Option Bool
deriving Repr, DecidableEq

/-- The `user_result_by_screen_name.result` object: its `__typename` may be
`UserUnavailable`, and `about_profile` may be missing. -/
structure UserResult where
  isUnavailable : Bool
  about_profile : Option AboutProfile
deriving Repr, DecidableEq

/-- A parsed API response body: whether an `errors` array is present, and the
`data` field with its nested optional user result. -/
structure APIResponse where
  hasErrorsArray : Bool
  userData : Option (Option UserResult)
deriving Repr, DecidableEq

/-- The result record of `#validateAPIResponse` (lines 882-929). -/
structure ValidationResult where
  isValid : Bool
  accountBasedIn : Option String
  locationAccurate : Option Bool
deriving Repr, DecidableEq

/-- `#validateAPIResponse(data, screenName)` (lines 882-929).  The JavaScript
`aboutProfile.account_based_in || null` maps an empty string to null. -/
def validateAPIResponse (data : APIResponse) : ValidationResult :=
  if data.hasErrorsArray then ⟨false, none, none⟩
  else
    match data.userData with
    | none => ⟨false, none, none⟩
    | some userResult =>
        match userResult with
        | none => ⟨false, none, none⟩
        | some u =>
            if u.isUnavailable then ⟨false, none, none⟩
            else
              match u.about_profile with
              | none => ⟨false, none, none⟩
              | some ap =>
                  { isValid := true
                    accountBasedIn :=
                      match ap.account_based_in with
                      | some l => if l ≠ "" then some l else none
                      | none => none
                    locationAccurate := ap.location_accurate }

/-- What the network returned to `#makeRequest`: a thrown fetch or JSON
error, or an HTTP response with status, ok flag and parsed body. -/
inductive TransportResp where
  | netError
  | http (status : Int) (ok : Bool) (body : APIResponse)
deriving Repr, DecidableEq

/-- `#makeRequest(screenName)` (lines 937-1052): guards on captured headers
and the rate-limited flag (no network call in either case), then branches on
status 429, non-ok status, the validated body without a location, or
success.  `resp` is what the network would answer if called; a
`networkCall` event marks that the request was actually issued. -/
def makeRequest (env : FetchEnv) (s : Fetcher) (screenName : String)
    (resp : TransportResp) (now : Int) : Fetcher × Option FetchResult × List FEvent :=
  if !s.hasHeaders then (s, none, [])
  else if s.rateLimited then (s, none, [])
  else
    match resp with
    | .netError => (s, none, [FEvent.networkCall screenName])
    | .http status ok body =>
        if status = 429 then
          let ev429 := [FEvent.networkCall screenName] ++
            (if env.swAvailable then [FEvent.swSetRateLimit true] else [])
          let r := handleRateLimit env s now
          (r.1, none, ev429 ++ r.2)
        else if !ok then (s, none, [FEvent.networkCall screenName])
        else
          let validation := validateAPIResponse body
          match validation.accountBasedIn with
          | none =>
              (s, none,
               [FEvent.networkCall screenName,
                FEvent.postFetchResponse screenName (some "undefined") false])
          | some loc =>
              if validation.isValid then
                let locationAccurate := validation.locationAccurate ≠ some false
                (s, some ⟨loc, locationAccurate⟩,
                 [FEvent.networkCall screenName,
                  FEvent.postFetchResponse screenName (some loc) locationAccurate])
              else
                (s, none,
                 [FEvent.networkCall screenName,
                  FEvent.postFetchResponse screenName (some "undefined") false])

/-! ### ActiveFetcher: deferred processing step (lines 1158-1232) -/

/-- One `#processDeferredItem()` step (lines 1158-1232): stop when not
processing, rate limited, paused, or empty; re-prioritize; while the user is
active only a viewport head item may proceed; shift the head, drop a
detached element, otherwise announce deferred processing and re-issue the
fetch through `fetchUserLocation`. -/
def processDeferredItem (env : FetchEnv) (s : Fetcher) (now : Int)
    (sw : SWLocResult) (rid : Nat) : Fetcher × List FEvent :=
  if !s.processingDeferred || s.rateLimited || s.paused then
    ({ s with processingDeferred := false }, [])
  else if s.deferredQueue.isEmpty then
    ({ s with processingDeferred := false }, [])
  else
    let dq := reprioritizeDeferredQueue env s.deferredQueue
    match dq with
    | [] => ({ s with processingDeferred := false }, [])
    | item :: rest =>
        if !s.userIdle && !(elementInViewport env item.element) then
          ({ s with deferredQueue := dq, processingDeferred := false }, [])
        else
          let s1 := { s with
            deferredQueue := rest
            deferredUsernames := s.deferredUsernames.filter fun n => n ≠ item.screenName }
          let detached :=
            match item.element with
            | some e => !env.inDom e
            | none => false
          if detached then (s1, [])
          else
            let fr := fetchUserLocation env s1 item.screenName item.element sw now rid
            (Fetcher.untrackElement fr.1 item.screenName,
             FEvent.deferredProcessing item.screenName :: fr.2.2)

/-! ### Content-script message handler (src/unnamed/part_003 lines 124-205) -/

/-- The username format check of `isValidFetchResponseMessage`
(part_003 lines 124-135): the regular expression `^[a-zA-Z0-9_]{1,15}$`,
expressed over the underlying character list. -/
def isValidUsernameFormat (s : String) : Bool :=
  decide (1 ≤ s.data.length) && decide (s.data.length ≤ 15) &&
    s.data.all fun c => c.isAlphanum || c = '_'

/-- The cache-relevant action that the content-script message listener takes
for an `XFLAG_FETCH_RESPONSE` message. -/
inductive HandlerAction where
  | cacheSet (screenName location : String) (accurate : Bool)
  | clearLoading (screenName : String)
  | ignored
deriving Repr, DecidableEq

/-- The `XFLAG_FETCH_RESPONSE` branch of the message listener (part_003
lines 191-205): after structural validation, a truthy location is written to
the cache client and rendered; a null location clears loading flags. -/
def handleFetchResponseMsg (screenName : String) (location : Option String)
    (accurate : Bool) : HandlerAction :=
  if !isValidUsernameFormat screenName then .ignored
  else
    match location with
    | some l => if screenName ≠ "" ∧ l ≠ "" then .cacheSet screenName l accurate else .ignored
    | none => if screenName ≠ "" then .clearLoading screenName else .ignored

/-! ## Theorems -/

/-- Claim C3: a cache entry written at time `T` under TTL `D` is a hit for
every `has`/`get` read at any time strictly less than `T + D` and a miss at
any time greater than or equal to `T + D`; a read observing an expired entry
behaves as a miss and evicts the entry, both in the service-worker
`UnifiedCache` and in the content-script `CountryCache`. -/
theorem cache_ttl_hit_miss_evict (c : UnifiedCache) (cc : CountryCache)
    (u loc : String) (acc : Bool) (T now : Int) :
    (((c.set u loc acc T).has u now).1 = decide (now < T + c.ttl)) ∧
    (((c.set u loc acc T).has u now).2.memoryCache u =
      if now < T + c.ttl then some ⟨loc, acc, T⟩ else none) ∧
    (((c.set u loc acc T).get u now).1 =
      if now < T + c.ttl then some (loc, acc) else none) ∧
    (((cc.set u loc acc T).get u now).1 =
      if now < T + cc.ttl then some (loc, acc) else none) ∧
    (((cc.set u loc acc T).get u now).2.memoryCache u =
      if now < T + cc.ttl then some ⟨loc, acc, T⟩ else none) := by
  refine ⟨?_, ?_, ?_, ?_, ?_⟩
  · by_cases hle : T + c.ttl ≤ now
    · have hnlt : ¬ now < T + c.ttl := by omega
      simp [UnifiedCache.has, UnifiedCache.set, hle, hnlt]
    · have hlt : now < T + c.ttl := by omega
      simp [UnifiedCache.has, UnifiedCache.set, hle, hlt]
  · by_cases hle : T + c.ttl ≤ now
    · have hnlt : ¬ now < T + c.ttl := by omega
      simp [UnifiedCache.has, UnifiedCache.set, hle, hnlt]
    · have hlt : now < T + c.ttl := by omega
      simp [UnifiedCache.has, UnifiedCache.set, hle, hlt]
  · by_cases hle : T + c.ttl ≤ now
    · have hnlt : ¬ now < T + c.ttl := by omega
      simp [UnifiedCache.get, UnifiedCache.has, UnifiedCache.set, hle, hnlt]
    · have hlt : now < T + c.ttl := by omega
      simp [UnifiedCache.get, UnifiedCache.has, UnifiedCache.set, hle, hlt]
  · by_cases hle : T + cc.ttl ≤ now
    · have hnlt : ¬ now < T + cc.ttl := by omega
      simp [CountryCache.get, CountryCache.set, hle, hnlt]
    · have hlt : now < T + cc.ttl := by omega
      simp [CountryCache.get, CountryCache.set, hle, hlt]
  · by_cases hle : T + cc.ttl ≤ now
    · have hnlt : ¬ now < T + cc.ttl := by omega
      simp [CountryCache.get, CountryCache.set, hle, hnlt]
    · have hlt : now < T + cc.ttl := by omega
      simp [CountryCache.get, CountryCache.set, hle, hlt]

/-- Claim C8: changing the TTL rewrites no entry (in particular no
`cachedAt`), and the new TTL applies immediately to the expiry check of
every existing entry: after `setTTL`, an entry written at `T` is a hit
exactly when the current time is strictly below `T + days·86400000`. -/
theorem setTTL_applies_immediately (c : UnifiedCache) (cc : CountryCache)
    (days : Int) (u : String) (e : CacheEntry) (now : Int)
    (h : c.memoryCache u = some e) (h2 : cc.memoryCache u = some e) :
    ((c.setTTL days).memoryCache = c.memoryCache) ∧
    ((cc.setTTL days).memoryCache = cc.memoryCache) ∧
    (((c.setTTL days).has u now).1 = decide (now < e.cachedAt + days * msPerDay)) ∧
    (((cc.setTTL days).get u now).1 =
      if now < e.cachedAt + days * msPerDay then some (e.location, e.accurate) else none) := by
  refine ⟨rfl, rfl, ?_, ?_⟩
  · by_cases hle : e.cachedAt + days * msPerDay ≤ now
    · have hnlt : ¬ now < e.cachedAt + days * msPerDay := by omega
      simp [UnifiedCache.has, UnifiedCache.setTTL, h, hle, hnlt]
    · have hlt : now < e.cachedAt + days * msPerDay := by omega
      simp [UnifiedCache.has, UnifiedCache.setTTL, h, hle, hlt]
  · by_cases hle : e.cachedAt + days * msPerDay ≤ now
    · have hnlt : ¬ now < e.cachedAt + days * msPerDay := by omega
      simp [CountryCache.get, CountryCache.setTTL, h2, hle, hnlt]
    · have hlt : now < e.cachedAt + days * msPerDay := by omega
      simp [CountryCache.get, CountryCache.setTTL, h2, hle, hlt]

/-- Witness for C8 at a concrete cache: an entry written at time 1000 keeps
its write time under a TTL change to 2 days and is a hit one day later. -/
theorem setTTL_applies_immediately_witness :
    (((UnifiedCache.init.set "alice" "Japan" true 1000).setTTL 2).has "alice" 86401000).1 = true := by
  have h := setTTL_applies_immediately (UnifiedCache.init.set "alice" "Japan" true 1000)
    ((⟨fun _ => none, 0⟩ : CountryCache).set "alice" "Japan" true 1000)
    2 "alice" ⟨"Japan", true, 1000⟩ 86401000 (by decide) (by decide)
  rw [h.2.2.1]
  decide

/-- Claim C10: `setTTL(days)` performs no range validation: for every
integer `days` (including 0, negatives, and values above 365) it sets the
TTL to `days * 86400000` milliseconds and the `CACHE_SET_TTL` handler
answers success, with entries untouched; the content-script client behaves
the same. -/
theorem setTTL_no_range_validation (c : UnifiedCache) (cc : CountryCache) (days : Int) :
    ((handleCacheSetTTL c days).1.ttl = days * 86400000) ∧
    ((handleCacheSetTTL c days).2.success = true) ∧
    ((handleCacheSetTTL c days).1.memoryCache = c.memoryCache) ∧
    ((cc.setTTL days).ttl = days * 86400000) ∧
    ((handleCacheSetTTL c 0).1.ttl = 0) ∧
    ((handleCacheSetTTL c (-5)).1.ttl = -432000000) ∧
    ((handleCacheSetTTL c 400).1.ttl = 34560000000) := by
  unfold handleCacheSetTTL UnifiedCache.setTTL CountryCache.setTTL msPerDay
  norm_num

/-- A `REQUEST_LOCATION` call for a subject with no cache entry and no
registration results in `shouldFetch` and creates a fresh registration with
an empty waiter list. -/
theorem requestLocation_starts_registration (s : SWState) (u : String) (tab : Nat)
    (now : Int)
    (hcache : s.cache.memoryCache u = none)
    (hreg : s.dedup.inFlightRequests u = none) :
    ((handleRequestLocation s u tab now).2.1 = LocResponse.shouldFetchR) ∧
    ((handleRequestLocation s u tab now).2.2 = []) ∧
    ((handleRequestLocation s u tab now).1.cache = s.cache) ∧
    ((handleRequestLocation s u tab now).1.dedup.inFlightRequests u = some []) ∧
    ((handleRequestLocation s u tab now).1.dedup.requestStartTimes u = some now) ∧
    ((handleRequestLocation s u tab now).1.dedup.requestTimeout = s.dedup.requestTimeout) := by
  have hhas : s.cache.has u now = (false, s.cache) := by
    unfold UnifiedCache.has
    rw [hcache]
  have hinf : s.dedup.isInFlight u now = (false, s.dedup, []) := by
    unfold RequestDeduplicator.isInFlight
    rw [hreg]
  unfold handleRequestLocation RequestDeduplicator.startRequest
  simp [hhas, hinf, hreg]

/-- A `REQUEST_LOCATION` call for a subject with no cache entry and a live
registration (younger than the 30 s timeout) only appends the caller as a
waiter: no `shouldFetch`, no resolution events, and no other state change. -/
theorem requestLocation_adds_waiter (s : SWState) (u : String) (tab : Nat)
    (now t0 : Int) (ws : List Nat)
    (hcache : s.cache.memoryCache u = none)
    (hreg : s.dedup.inFlightRequests u = some ws)
    (hstart : s.dedup.requestStartTimes u = some t0)
    (ht0 : t0 ≠ 0)
    (hnow : now ≤ t0 + s.dedup.requestTimeout) :
    ((handleRequestLocation s u tab now).2.1 = LocResponse.waitedR) ∧
    ((handleRequestLocation s u tab now).2.2 = []) ∧
    ((handleRequestLocation s u tab now).1.cache = s.cache) ∧
    ((handleRequestLocation s u tab now).1.dedup.inFlightRequests u = some (ws ++ [tab])) ∧
    ((handleRequestLocation s u tab now).1.dedup.requestStartTimes = s.dedup.requestStartTimes) ∧
    ((handleRequestLocation s u tab now).1.dedup.requestTimeout = s.dedup.requestTimeout) := by
  have hhas : s.cache.has u now = (false, s.cache) := by
    unfold UnifiedCache.has
    rw [hcache]
  have hcond : ¬ (t0 ≠ 0 ∧ now - t0 > s.dedup.requestTimeout) := by omega
  have hinf : s.dedup.isInFlight u now = (true, s.dedup, []) := by
    unfold RequestDeduplicator.isInFlight
    rw [hreg, hstart]
    simp [hcond]
  unfold handleRequestLocation RequestDeduplicator.waitForRequest
  simp [hhas, hinf, hreg]

/-- Every `REQUEST_LOCATION` call arriving while a registration is live (and
within its timeout window) is answered `waitedR`, appends its tab as a
waiter in arrival order, resolves nobody, and leaves the rest of the
coordinator state alone. -/
theorem runRequests_all_waited (s : SWState) (u : String) (t0 : Int)
    (ws : List Nat) (calls : List (Nat × Int))
    (hcache : s.cache.memoryCache u = none)
    (hreg : s.dedup.inFlightRequests u = some ws)
    (hstart : s.dedup.requestStartTimes u = some t0)
    (ht0 : t0 ≠ 0)
    (hcalls : ∀ p ∈ calls, p.2 ≤ t0 + s.dedup.requestTimeout) :
    ((runRequests s u calls).2.1 = calls.map fun _ => LocResponse.waitedR) ∧
    ((runRequests s u calls).2.2 = []) ∧
    ((runRequests s u calls).1.dedup.inFlightRequests u = some (ws ++ calls.map Prod.fst)) ∧
    ((runRequests s u calls).1.dedup.requestStartTimes u = some t0) := by
  induction calls generalizing s ws with
  | nil => simp [runRequests, hreg, hstart]
  | cons c cs ih =>
    obtain ⟨h1, h2, h3, h4, h5, h6⟩ :=
      requestLocation_adds_waiter s u c.1 c.2 t0 ws hcache hreg hstart ht0
        (hcalls c (List.mem_cons_self c cs))
    have hcache2 : (handleRequestLocation s u c.1 c.2).1.cache.memoryCache u = none := by
      rw [h3]; exact hcache
    have hstart2 : (handleRequestLocation s u c.1 c.2).1.dedup.requestStartTimes u = some t0 := by
      rw [h5]; exact hstart
    have hcalls2 : ∀ p ∈ cs,
        p.2 ≤ t0 + (handleRequestLocation s u c.1 c.2).1.dedup.requestTimeout := by
      intro p hp
      rw [h6]
      exact hcalls p (List.mem_cons_of_mem c hp)
    obtain ⟨g1, g2, g3, g4⟩ := ih (handleRequestLocation s u c.1 c.2).1 (ws ++ [c.1])
      hcache2 h4 hstart2 hcalls2
    refine ⟨?_, ?_, ?_, ?_⟩
    · simp [runRequests, h1, g1]
    · simp [runRequests, h2, g2]
    · simp only [runRequests]
      rw [g3]
      simp
    · simp only [runRequests]
      rw [g4]

/-- Claim C1: among any number of serialized `REQUEST_LOCATION` calls for
one subject with no cache entry, only the first receives `shouldFetch`;
every later call within the registration lifetime (the 30 s timeout window)
is added as a waiter to the existing registration, so the coordinator grants
at most one fetch for the subject before the registration completes. -/
theorem coordinator_grants_single_shouldFetch (s : SWState) (u : String)
    (tab0 : Nat) (t0 : Int) (rest : List (Nat × Int))
    (hcache : s.cache.memoryCache u = none)
    (hreg : s.dedup.inFlightRequests u = none)
    (ht0 : t0 ≠ 0)
    (hrest : ∀ p ∈ rest, p.2 ≤ t0 + s.dedup.requestTimeout) :
    ((runRequests s u ((tab0, t0) :: rest)).2.1 =
      LocResponse.shouldFetchR :: rest.map fun _ => LocResponse.waitedR) ∧
    ((runRequests s u ((tab0, t0) :: rest)).2.2 = []) ∧
    ((runRequests s u ((tab0, t0) :: rest)).1.dedup.inFlightRequests u =
      some (rest.map Prod.fst)) ∧
    ((runRequests s u ((tab0, t0) :: rest)).1.dedup.requestStartTimes u = some t0) := by
  obtain ⟨h1, h2, h3, h4, h5, h6⟩ :=
    requestLocation_starts_registration s u tab0 t0 hcache hreg
  have hcache2 : (handleRequestLocation s u tab0 t0).1.cache.memoryCache u = none := by
    rw [h3]; exact hcache
  have hrest2 : ∀ p ∈ rest,
      p.2 ≤ t0 + (handleRequestLocation s u tab0 t0).1.dedup.requestTimeout := by
    intro p hp
    rw [h6]
    exact hrest p hp
  obtain ⟨g1, g2, g3, g4⟩ := runRequests_all_waited (handleRequestLocation s u tab0 t0).1
    u t0 [] rest hcache2 h4 h5 ht0 hrest2
  refine ⟨?_, ?_, ?_, ?_⟩
  · simp [runRequests, h1, g1]
  · simp [runRequests, h2, g2]
  · simp only [runRequests]
    rw [g3]
    simp
  · simp only [runRequests]
    rw [g4]

/-- Witness for C1: three tabs request the uncached subject alice at times
100, 200 and 30100 ms; exactly the first is granted shouldFetch, the other
two wait, and both are registered as waiters. -/
theorem coordinator_grants_single_shouldFetch_witness :
    ((runRequests ⟨UnifiedCache.init, RequestDeduplicator.init, RateLimitCoordinator.init⟩
        "alice" [(1, 100), (2, 200), (3, 30100)]).2.1 =
      [LocResponse.shouldFetchR, LocResponse.waitedR, LocResponse.waitedR]) ∧
    ((runRequests ⟨UnifiedCache.init, RequestDeduplicator.init, RateLimitCoordinator.init⟩
        "alice" [(1, 100), (2, 200), (3, 30100)]).1.dedup.inFlightRequests "alice" =
      some [2, 3]) := by
  have h := coordinator_grants_single_shouldFetch
    ⟨UnifiedCache.init, RequestDeduplicator.init, RateLimitCoordinator.init⟩
    "alice" 1 100 [(2, 200), (3, 30100)] rfl rfl (by decide) (by decide)
  exact ⟨h.1, h.2.2.1⟩

/-- Claim C2: completing a request with a value resolves every registered
waiter with exactly that result exactly once (one event per registered
waiter, in order), writes the value to the cache, and deletes the
registration; a second completion for the same subject resolves no waiters
and the registration stays deleted. -/
theorem complete_resolves_each_waiter_once (s : SWState) (u : String)
    (ws : List Nat) (r : FetchResult) (now : Int) (d2 : Option FetchResult)
    (now2 : Int)
    (hreg : s.dedup.inFlightRequests u = some ws)
    (hloc : r.location ≠ "") :
    ((handleRequestComplete s u (some r) now).2 =
      ws.map fun t => SWEvent.resolvedWaiter u t (some r)) ∧
    ((handleRequestComplete s u (some r) now).1.cache.memoryCache u =
      some ⟨r.location, r.accurate, now⟩) ∧
    ((handleRequestComplete s u (some r) now).1.dedup.inFlightRequests u = none) ∧
    ((handleRequestComplete s u (some r) now).1.dedup.requestStartTimes u = none) ∧
    ((handleRequestComplete (handleRequestComplete s u (some r) now).1 u d2 now2).2 = []) ∧
    ((handleRequestComplete (handleRequestComplete s u (some r) now).1
        u d2 now2).1.dedup.inFlightRequests u = none) := by
  unfold handleRequestComplete RequestDeduplicator.completeRequest UnifiedCache.set
  simp [hreg, hloc]

/-- Witness for C2: completing alice with Japan resolves the two registered
waiters 5 and 7 with exactly that value, in order. -/
theorem complete_resolves_each_waiter_once_witness :
    ((handleRequestComplete
        ⟨UnifiedCache.init,
         { RequestDeduplicator.init with
            inFlightRequests := fun k => if k = "alice" then some [5, 7] else none },
         RateLimitCoordinator.init⟩
        "alice" (some ⟨"Japan", true⟩) 50).2 =
      [SWEvent.resolvedWaiter "alice" 5 (some ⟨"Japan", true⟩),
       SWEvent.resolvedWaiter "alice" 7 (some ⟨"Japan", true⟩)]) := by
  have h := complete_resolves_each_waiter_once
    ⟨UnifiedCache.init,
     { RequestDeduplicator.init with
        inFlightRequests := fun k => if k = "alice" then some [5, 7] else none },
     RateLimitCoordinator.init⟩
    "alice" [5, 7] ⟨"Japan", true⟩ 50 none 60 (by decide) (by decide)
  simpa using h.1

theorem length_updateQueuePriorities (env : FetchEnv) (q : List QueueItem) :
    (updateQueuePriorities env q).length = q.length := by
  unfold updateQueuePriorities assignPriorities sortQueue
  dsimp only
  split
  · rfl
  · rw [List.length_insertionSort, List.length_map]

/-- Recomputing the priority field does not change what
`#getPriorityForItem` answers: it reads only the hover and viewport state. -/
theorem getPriorityForItem_set_priority (env : FetchEnv) (a : QueueItem) (p : Int) :
    getPriorityForItem env { a with priority := p } = getPriorityForItem env a := rfl

/-- After the re-assignment pass, every priority field agrees with
`#getPriorityForItem`. -/
theorem assignPriorities_fixed (env : FetchEnv) (q : List QueueItem) :
    ∀ it ∈ assignPriorities env q, it.priority = getPriorityForItem env it := by
  intro it hit
  unfold assignPriorities at hit
  rw [List.mem_map] at hit
  obtain ⟨a, _, rfl⟩ := hit
  rfl

/-- The re-assignment pass is the identity on a queue whose priorities are
already current. -/
theorem assignPriorities_of_fixed (env : FetchEnv) (q : List QueueItem)
    (h : ∀ it ∈ q, it.priority = getPriorityForItem env it) :
    assignPriorities env q = q := by
  induction q with
  | nil => rfl
  | cons a rest ih =>
    have ha := h a (List.mem_cons_self a rest)
    have h1 : ({ a with priority := getPriorityForItem env a } : QueueItem) = a := by
      rw [← ha]
    have h2 := ih fun it hit => h it (List.mem_cons_of_mem a hit)
    unfold assignPriorities at h2 ⊢
    simp only [List.map_cons]
    rw [h1, h2]

/-- On a queue whose priorities are already current, the dequeue loop of
`#processQueue()` serves the queue front to back. -/
theorem serveSteps_of_fixed (env : FetchEnv) :
    ∀ (n : Nat) (q : List QueueItem), q.length ≤ n →
      (∀ it ∈ q, it.priority = getPriorityForItem env it) →
      serveSteps env n q = q.map fun it => it.screenName := by
  intro n
  induction n with
  | zero =>
    intro q hq _
    rw [Nat.le_zero] at hq
    rw [List.length_eq_zero] at hq
    subst hq
    rfl
  | succ m ih =>
    intro q hq hfix
    match q with
    | [] => rfl
    | it :: rest =>
      have hupd : updateQueuePriorities env (it :: rest) = it :: rest := by
        unfold updateQueuePriorities
        simp [assignPriorities_of_fixed env (it :: rest) hfix]
      unfold serveSteps
      rw [hupd]
      simp only [List.map_cons, List.cons.injEq, true_and]
      exact ih rest (by simpa using Nat.lt_succ_iff.mp (Nat.lt_of_lt_of_le (Nat.lt_succ_self _) hq))
        fun x hx => hfix x (List.mem_cons_of_mem it hx)

/-- The sort of `#sortQueue` is sorted for the comparator order. -/
theorem sortQueue_sorted (q : List QueueItem) : List.Sorted itemLe (sortQueue q) :=
  List.sorted_insertionSort itemLe q

/-- In a sorted queue, an item with a smaller priority number, or with equal
priority and a strictly earlier timestamp, sits strictly earlier. -/
theorem sorted_position_lt (l : List QueueItem) (hl : List.Sorted itemLe l)
    (i j : Fin l.length)
    (hij : (l.get i).priority < (l.get j).priority ∨
      ((l.get i).priority = (l.get j).priority ∧
        (l.get i).timestamp < (l.get j).timestamp)) :
    (i : Nat) < (j : Nat) := by
  rcases Nat.lt_trichotomy (i : Nat) (j : Nat) with h | h | h
  · exact h
  · exfalso
    have : i = j := Fin.ext h
    subst this
    omega
  · exfalso
    have hji : j < i := Fin.lt_def.mpr h
    have hle := hl.rel_get_of_lt hji
    unfold itemLe at hle
    omega

/-- Claim C4 (amended): the priorities the recomputation assigns are
Hovered for a hovered subject (checked first, even if also visible),
Viewport for a visible non-hovered subject, Default otherwise; the queue is
served by ascending priority number, so the actual precedence is
viewport-visible > hovered > default; ties inside one tier are FIFO by
enqueue timestamp; and three requests queued with tiers
[Default, Viewport, Default] are served as the Viewport one, then the first
Default, then the second Default. -/
theorem priority_order_amended :
    (∀ env it, env.hovered it.screenName = true →
      getPriorityForItem env it = PRIORITY_HOVERED) ∧
    (∀ env it, env.hovered it.screenName = false →
      elementInViewport env it.element = true →
      getPriorityForItem env it = PRIORITY_VIEWPORT) ∧
    (∀ env it, env.hovered it.screenName = false →
      elementInViewport env it.element = false →
      getPriorityForItem env it = PRIORITY_DEFAULT) ∧
    (PRIORITY_VIEWPORT < PRIORITY_HOVERED ∧ PRIORITY_HOVERED < PRIORITY_DEFAULT) ∧
    (∀ env q (i j : Fin (sortQueue (assignPriorities env q)).length),
      (((sortQueue (assignPriorities env q)).get i).priority <
          ((sortQueue (assignPriorities env q)).get j).priority ∨
        (((sortQueue (assignPriorities env q)).get i).priority =
            ((sortQueue (assignPriorities env q)).get j).priority ∧
          ((sortQueue (assignPriorities env q)).get i).timestamp <
            ((sortQueue (assignPriorities env q)).get j).timestamp)) →
      (i : Nat) < (j : Nat)) ∧
    (∀ env q, serveAll env (sortQueue (assignPriorities env q)) =
      (sortQueue (assignPriorities env q)).map fun it => it.screenName) ∧
    (serveAll ⟨fun _ => false, fun e => e == 5, fun _ => true, false⟩
      (fetchUserLocation ⟨fun _ => false, fun e => e == 5, fun _ => true, false⟩
        (fetchUserLocation ⟨fun _ => false, fun e => e == 5, fun _ => true, false⟩
          (fetchUserLocation ⟨fun _ => false, fun e => e == 5, fun _ => true, false⟩
            Fetcher.init "dave1" none .unavailable 1 1).1
          "fiona" (some 5) .unavailable 2 2).1
        "dave2" none .unavailable 3 3).1.requestQueue = ["fiona", "dave1", "dave2"]) := by
  refine ⟨?_, ?_, ?_, ?_, ?_, ?_, ?_⟩
  · intro env it h
    unfold getPriorityForItem
    rw [h]
    rfl
  · intro env it h1 h2
    unfold getPriorityForItem
    rw [h1, h2]
    rfl
  · intro env it h1 h2
    unfold getPriorityForItem
    rw [h1, h2]
    rfl
  · constructor <;> decide
  · intro env q i j hij
    exact sorted_position_lt _ (sortQueue_sorted (assignPriorities env q)) i j hij
  · intro env q
    unfold serveAll
    refine serveSteps_of_fixed env _ _ (Nat.le_refl _) ?_
    intro it hit
    have hmem : it ∈ assignPriorities env q := by
      have hperm := List.perm_insertionSort itemLe (assignPriorities env q)
      exact hperm.mem_iff.mp hit
    exact assignPriorities_fixed env q it hmem
  · decide

/-- Witness for the amended C4: a visible non-hovered subject is classified
into the Viewport tier. -/
theorem priority_order_amended_witness :
    (FetchEnv.hovered ⟨fun _ => false, fun _ => true, fun _ => true, false⟩ "bob" = false) ∧
    (elementInViewport ⟨fun _ => false, fun _ => true, fun _ => true, false⟩ (some 7) = true) ∧
    (getPriorityForItem ⟨fun _ => false, fun _ => true, fun _ => true, false⟩
      ⟨"bob", 2, PRIORITY_DEFAULT, 2, some 7⟩ = PRIORITY_VIEWPORT) := by
  refine ⟨by decide, by decide, ?_⟩
  exact priority_order_amended.2.1 _ _ (by decide) (by decide)

/-- Counterexample to C4 as stated: with alice hovered (enqueued first) and
bob merely viewport-visible, the scheduler serves bob before alice, because
the code numbers the Viewport tier 1 and the Hovered tier 2 and serves
ascending numbers — the claimed precedence hovered > viewport-visible is
reversed in the code. -/
theorem hovered_before_viewport_counterexample :
    (serveAll ⟨fun s => s == "alice", fun e => e == 7, fun _ => true, false⟩
      (fetchUserLocation ⟨fun s => s == "alice", fun e => e == 7, fun _ => true, false⟩
        (fetchUserLocation ⟨fun s => s == "alice", fun e => e == 7, fun _ => true, false⟩
          Fetcher.init "alice" none .unavailable 1 1).1
        "bob" (some 7) .unavailable 2 2).1.requestQueue = ["bob", "alice"]) ∧
    (FetchEnv.hovered ⟨fun s => s == "alice", fun e => e == 7, fun _ => true, false⟩
      "alice" = true) ∧
    (FetchEnv.hovered ⟨fun s => s == "alice", fun e => e == 7, fun _ => true, false⟩
      "bob" = false) ∧
    (elementInViewport ⟨fun s => s == "alice", fun e => e == 7, fun _ => true, false⟩
      (some 7) = true) ∧
    (elementInViewport ⟨fun s => s == "alice", fun e => e == 7, fun _ => true, false⟩
      none = false) := by
  decide

/-- Claim C7: a transport failure other than an explicit 429 — a network
error, a non-ok HTTP status, or an ok response whose body fails validation —
resolves the request with a null result and leaves the fetcher state (in
particular the rate-limited flag) untouched; only an explicit 429 response
can set the rate-limited flag. -/
theorem non_429_failures_resolve_null (env : FetchEnv) (s : Fetcher)
    (name : String) (status : Int) (body : APIResponse) (now : Int)
    (hh : s.hasHeaders = true)
    (hrl : s.rateLimited = false) :
    (makeRequest env s name TransportResp.netError now =
      (s, none, [FEvent.networkCall name])) ∧
    (status ≠ 429 → makeRequest env s name (TransportResp.http status false body) now =
      (s, none, [FEvent.networkCall name])) ∧
    (status ≠ 429 → (validateAPIResponse body).accountBasedIn = none →
      makeRequest env s name (TransportResp.http status true body) now =
      (s, none,
       [FEvent.networkCall name,
        FEvent.postFetchResponse name (some "undefined") false])) ∧
    (∀ resp, (makeRequest env s name resp now).1.rateLimited = true →
      ∃ ok2 body2, resp = TransportResp.http 429 ok2 body2) := by
  refine ⟨?_, ?_, ?_, ?_⟩
  · unfold makeRequest
    simp [hh, hrl]
  · intro h429
    unfold makeRequest
    simp [hh, hrl, h429]
  · intro h429 hval
    unfold makeRequest
    simp [hh, hrl, h429, hval]
  · intro resp hlim
    match resp with
    | TransportResp.netError =>
      exfalso
      unfold makeRequest at hlim
      simp [hh, hrl] at hlim
    | TransportResp.http status2 ok2 body2 =>
      by_cases h429 : status2 = 429
      · subst h429
        exact ⟨ok2, body2, rfl⟩
      · exfalso
        have hst : (makeRequest env s name (TransportResp.http status2 ok2 body2) now).1 = s := by
          unfold makeRequest
          cases hvv : (validateAPIResponse body2).accountBasedIn with
          | none =>
            by_cases hok : ok2 <;> simp [hh, hrl, h429, hok, hvv]
          | some loc =>
            by_cases hok : ok2 <;>
              by_cases hv : (validateAPIResponse body2).isValid <;>
                simp [hh, hrl, h429, hok, hv, hvv]
        rw [hst] at hlim
        rw [hlim] at hrl
        cases hrl

/-- Witness for C7: a concrete fetcher with headers and no rate limit gets a
null result and an unchanged state from an HTTP 500. -/
theorem non_429_failures_resolve_null_witness :
    makeRequest ⟨fun _ => false, fun _ => false, fun _ => true, false⟩
      { Fetcher.init with hasHeaders := true } "alice"
      (TransportResp.http 500 false ⟨false, none⟩) 0 =
    ({ Fetcher.init with hasHeaders := true }, none, [FEvent.networkCall "alice"]) := by
  have h := non_429_failures_resolve_null
    ⟨fun _ => false, fun _ => false, fun _ => true, false⟩
    { Fetcher.init with hasHeaders := true } "alice" 500 ⟨false, none⟩ 0
    (by decide) (by decide)
  exact h.2.1 (by decide)

/-- `updateFirstElement` keeps the queue length. -/
theorem updateFirstElement_length (q : List QueueItem) (name : String) (e : Nat) :
    (updateFirstElement q name e).length = q.length := by
  induction q with
  | nil => rfl
  | cons it rest ih =>
    unfold updateFirstElement
    by_cases h : it.screenName = name
    · simp [h]
    · simp [h, ih]

/-- `updateFirstElement` keeps every screen name in place. -/
theorem updateFirstElement_screenNames (q : List QueueItem) (name : String) (e : Nat) :
    (updateFirstElement q name e).map (fun it => it.screenName) =
      q.map fun it => it.screenName := by
  induction q with
  | nil => rfl
  | cons it rest ih =>
    unfold updateFirstElement
    by_cases h : it.screenName = name
    · by_cases hel : it.element = none <;> simp [h, hel]
    · simp [h, ih]

/-- `updateFirstElement` keeps every continuation id in place. -/
theorem updateFirstElement_rids (q : List QueueItem) (name : String) (e : Nat) :
    (updateFirstElement q name e).map (fun it => it.rid) = q.map fun it => it.rid := by
  induction q with
  | nil => rfl
  | cons it rest ih =>
    unfold updateFirstElement
    by_cases h : it.screenName = name
    · by_cases hel : it.element = none <;> simp [h, hel]
    · simp [h, ih]

/-- `updateFirstElement` sets the element of the first matching item when it
was absent. -/
theorem updateFirstElement_find (q : List QueueItem) (name : String) (e : Nat)
    (existing : QueueItem)
    (hfind : q.find? (fun it => it.screenName == name) = some existing)
    (hel : existing.element = none) :
    (updateFirstElement q name e).find? (fun it => it.screenName == name) =
      some { existing with element := some e } := by
  induction q with
  | nil => cases hfind
  | cons it rest ih =>
    by_cases h : it.screenName = name
    · have hfind2 : it = existing := by
        rw [List.find?_cons_of_pos] at hfind
        · exact Option.some.inj hfind
        · simp [h]
      subst hfind2
      unfold updateFirstElement
      rw [if_pos h, if_pos hel]
      rw [List.find?_cons_of_pos]
      simp [h]
    · have hfind2 : rest.find? (fun it => it.screenName == name) = some existing := by
        rw [List.find?_cons_of_neg] at hfind
        · exact hfind
        · simp [h]
      unfold updateFirstElement
      rw [if_neg h]
      rw [List.find?_cons_of_neg]
      · exact ih hfind2
      · simp [h]

/-- Claim C9 (amended): a duplicate request for a subject already pending in
the local queue enqueues nothing (length, names and continuations are
unchanged), updates the pending entry element when it was previously
absent — and the duplicate call resolves immediately with null rather than
waiting for the original to settle. -/
theorem duplicate_request_immediate_null (env : FetchEnv) (s : Fetcher)
    (name : String) (element : Option Nat) (sw : SWLocResult) (now : Int) (rid : Nat)
    (hname : name ≠ "")
    (hdup : s.requestQueue.any (fun it => it.screenName == name) = true) :
    ((fetchUserLocation env s name element sw now rid).2.1 = FetchOutcome.immediate none) ∧
    ((fetchUserLocation env s name element sw now rid).2.2 = []) ∧
    ((fetchUserLocation env s name element sw now rid).1.requestQueue.length =
      s.requestQueue.length) ∧
    ((fetchUserLocation env s name element sw now rid).1.requestQueue.map
        (fun it => it.screenName) = s.requestQueue.map fun it => it.screenName) ∧
    ((fetchUserLocation env s name element sw now rid).1.requestQueue.map
        (fun it => it.rid) = s.requestQueue.map fun it => it.rid) ∧
    (∀ e existing, element = some e →
      s.requestQueue.find? (fun it => it.screenName == name) = some existing →
      existing.element = none →
      (fetchUserLocation env s name element sw now rid).1.requestQueue.find?
          (fun it => it.screenName == name) = some { existing with element := some e }) := by
  have hres : fetchUserLocation env s name element sw now rid =
      ((match element with
        | none => s
        | some e =>
            match s.requestQueue.find? fun it => it.screenName == name with
            | some existing =>
                if existing.element = none then
                  Fetcher.trackElement
                    { s with requestQueue := updateFirstElement s.requestQueue name e }
                    name (some e)
                else s
            | none => s),
       FetchOutcome.immediate none, []) := by
    unfold fetchUserLocation
    rw [if_neg hname, if_pos hdup]
  rw [hres]
  match element with
  | none =>
    refine ⟨rfl, rfl, rfl, rfl, rfl, ?_⟩
    intro e2 existing2 he2 _ _
    cases he2
  | some e =>
    cases hf : s.requestQueue.find? fun it => it.screenName == name with
    | none =>
      exfalso
      rw [List.find?_eq_none] at hf
      rw [List.any_eq_true] at hdup
      obtain ⟨x, hx, hpx⟩ := hdup
      exact hf x hx hpx
    | some existing =>
      dsimp only
      by_cases hel : existing.element = none
      · rw [if_pos hel]
        refine ⟨rfl, rfl, ?_, ?_, ?_, ?_⟩
        · simp [Fetcher.trackElement, updateFirstElement_length]
        · simp [Fetcher.trackElement, updateFirstElement_screenNames]
        · simp [Fetcher.trackElement, updateFirstElement_rids]
        · intro e2 existing2 he2 hfind2 hel2
          have he2e : e = e2 := Option.some.inj he2
          have hex : existing = existing2 := Option.some.inj hfind2
          subst he2e
          subst hex
          simp only [Fetcher.trackElement]
          exact updateFirstElement_find s.requestQueue name e existing hf hel
      · rw [if_neg hel]
        refine ⟨rfl, rfl, rfl, rfl, rfl, ?_⟩
        intro e2 existing2 he2 hfind2 hel2
        exfalso
        have hex : existing = existing2 := Option.some.inj hfind2
        subst hex
        exact hel hel2

/-- Witness for the amended C9: with alice already queued (rid 1, no
element), a duplicate request carrying element 9 resolves immediately with
null and only fills in the missing element. -/
theorem duplicate_request_immediate_null_witness :
    ((fetchUserLocation ⟨fun _ => false, fun _ => false, fun _ => true, false⟩
        { Fetcher.init with
            requestQueue := [⟨"alice", 1, PRIORITY_DEFAULT, 1, none⟩] }
        "alice" (some 9) SWLocResult.unavailable 2 2).2.1 =
      FetchOutcome.immediate none) ∧
    ((fetchUserLocation ⟨fun _ => false, fun _ => false, fun _ => true, false⟩
        { Fetcher.init with
            requestQueue := [⟨"alice", 1, PRIORITY_DEFAULT, 1, none⟩] }
        "alice" (some 9) SWLocResult.unavailable 2 2).1.requestQueue.map
        (fun it => it.rid) = [1]) := by
  have h := duplicate_request_immediate_null
    ⟨fun _ => false, fun _ => false, fun _ => true, false⟩
    { Fetcher.init with requestQueue := [⟨"alice", 1, PRIORITY_DEFAULT, 1, none⟩] }
    "alice" (some 9) SWLocResult.unavailable 2 2 (by decide) (by decide)
  exact ⟨h.1, h.2.2.2.2.1⟩

/-- Counterexample to C9 as stated: the duplicate call for the queued
subject alice resolves immediately with null while the original request
(continuation 1) is still pending in the queue — it does not resolve when
the original settles, nor with the original result. -/
theorem duplicate_request_counterexample :
    ((fetchUserLocation ⟨fun _ => false, fun _ => false, fun _ => true, false⟩
        { Fetcher.init with
            requestQueue := [⟨"alice", 7, PRIORITY_DEFAULT, 1, none⟩] }
        "alice" (some 9) SWLocResult.unavailable 2 8).2.1 =
      FetchOutcome.immediate none) ∧
    ((fetchUserLocation ⟨fun _ => false, fun _ => false, fun _ => true, false⟩
        { Fetcher.init with
            requestQueue := [⟨"alice", 7, PRIORITY_DEFAULT, 1, none⟩] }
        "alice" (some 9) SWLocResult.unavailable 2 8).2.1 ≠
      FetchOutcome.pending 7) ∧
    ((fetchUserLocation ⟨fun _ => false, fun _ => false, fun _ => true, false⟩
        { Fetcher.init with
            requestQueue := [⟨"alice", 7, PRIORITY_DEFAULT, 1, none⟩] }
        "alice" (some 9) SWLocResult.unavailable 2 8).1.requestQueue.map
        (fun it => it.rid) = [7]) := by
  refine ⟨by decide, by decide, by decide⟩

/-- The deferred-queue loop body does not touch the request queue or the
flag fields. -/
theorem addToDeferredStep_preserves (acc : Fetcher) (it : String × Option Nat)
    (now : Int) :
    ((addToDeferredStep acc it now).requestQueue = acc.requestQueue) ∧
    ((addToDeferredStep acc it now).rateLimited = acc.rateLimited) ∧
    ((addToDeferredStep acc it now).fetcherState = acc.fetcherState) ∧
    ((addToDeferredStep acc it now).processingDeferred = acc.processingDeferred) := by
  unfold addToDeferredStep Fetcher.trackElement
  split
  · exact ⟨rfl, rfl, rfl, rfl⟩
  · cases it.2 <;> exact ⟨rfl, rfl, rfl, rfl⟩

/-- The deferred-queue fold does not touch the request queue or the flag
fields. -/
theorem deferredFold_preserves (now : Int) :
    ∀ (items : List (String × Option Nat)) (s : Fetcher),
      ((items.foldl (fun acc it => addToDeferredStep acc it now) s).requestQueue =
        s.requestQueue) ∧
      ((items.foldl (fun acc it => addToDeferredStep acc it now) s).rateLimited =
        s.rateLimited) ∧
      ((items.foldl (fun acc it => addToDeferredStep acc it now) s).fetcherState =
        s.fetcherState) ∧
      ((items.foldl (fun acc it => addToDeferredStep acc it now) s).processingDeferred =
        s.processingDeferred) := by
  intro items
  induction items with
  | nil => intro s; exact ⟨rfl, rfl, rfl, rfl⟩
  | cons it rest ih =>
    intro s
    obtain ⟨p1, p2, p3, p4⟩ := addToDeferredStep_preserves s it now
    obtain ⟨q1, q2, q3, q4⟩ := ih (addToDeferredStep s it now)
    simp only [List.foldl_cons]
    exact ⟨q1.trans p1, q2.trans p2, q3.trans p3, q4.trans p4⟩

/-- The deferred-queue fold keeps the username set covered by the queue and
registers every folded username. -/
theorem deferredFold_mem (now : Int) :
    ∀ (items : List (String × Option Nat)) (s : Fetcher),
      (∀ m ∈ s.deferredUsernames, m ∈ s.deferredQueue.map fun d => d.screenName) →
      ((∀ m ∈ (items.foldl (fun acc it => addToDeferredStep acc it now) s).deferredUsernames,
          m ∈ (items.foldl (fun acc it => addToDeferredStep acc it now) s).deferredQueue.map
            fun d => d.screenName) ∧
       (∀ nm, ((∃ el, (nm, el) ∈ items) ∨ nm ∈ s.deferredUsernames) →
          nm ∈ (items.foldl (fun acc it => addToDeferredStep acc it now) s).deferredUsernames)) := by
  intro items
  induction items with
  | nil =>
    intro s hinv
    refine ⟨hinv, ?_⟩
    intro nm hnm
    rcases hnm with ⟨el, hel⟩ | hmem
    · cases hel
    · exact hmem
  | cons it rest ih =>
    intro s hinv
    have hstep :
        ((addToDeferredStep s it now).deferredUsernames = s.deferredUsernames ∧
          (addToDeferredStep s it now).deferredQueue = s.deferredQueue ∧
          it.1 ∈ s.deferredUsernames) ∨
        ((addToDeferredStep s it now).deferredUsernames = s.deferredUsernames ++ [it.1] ∧
          (addToDeferredStep s it now).deferredQueue =
            s.deferredQueue ++ [(⟨it.1, it.2, now⟩ : DeferredItem)]) := by
      unfold addToDeferredStep Fetcher.trackElement
      by_cases hc : s.deferredUsernames.contains it.1
      · left
        rw [if_pos hc]
        refine ⟨rfl, rfl, ?_⟩
        rw [List.contains_iff_exists_mem_beq] at hc
        obtain ⟨a, ha, hbeq⟩ := hc
        rw [eq_of_beq hbeq]
        exact ha
      · right
        rw [if_neg hc]
        cases it.2 <;> exact ⟨rfl, rfl⟩
    have hinv2 : ∀ m ∈ (addToDeferredStep s it now).deferredUsernames,
        m ∈ (addToDeferredStep s it now).deferredQueue.map fun d => d.screenName := by
      rcases hstep with ⟨e1, e2, _⟩ | ⟨e1, e2⟩
      · rw [e1, e2]
        exact hinv
      · rw [e1, e2]
        intro m hm
        rw [List.mem_append] at hm
        rcases hm with hm | hm
        · have := hinv m hm
          rw [List.map_append]
          exact List.mem_append_left _ this
        · rw [List.mem_singleton] at hm
          subst hm
          rw [List.map_append]
          refine List.mem_append_right _ ?_
          simp
    obtain ⟨g1, g2⟩ := ih (addToDeferredStep s it now) hinv2
    refine ⟨g1, ?_⟩
    intro nm hnm
    simp only [List.foldl_cons]
    rcases hnm with ⟨el, helmem⟩ | hmem
    · rcases List.mem_cons.mp helmem with heq | hrest
      · -- nm is the head item
        have hnm1 : nm ∈ (addToDeferredStep s it now).deferredUsernames := by
          have hit : it.1 = nm := by rw [← heq]
          rcases hstep with ⟨e1, _, e3⟩ | ⟨e1, _⟩
          · rw [e1, ← hit]
            exact e3
          · rw [e1, ← hit]
            exact List.mem_append_right _ (List.mem_singleton.mpr rfl)
        exact g2 nm (Or.inr hnm1)
      · exact g2 nm (Or.inl ⟨el, hrest⟩)
    · have hnm1 : nm ∈ (addToDeferredStep s it now).deferredUsernames := by
        rcases hstep with ⟨e1, _, _⟩ | ⟨e1, _⟩
        · rw [e1]; exact hmem
        · rw [e1]; exact List.mem_append_left _ hmem
      exact g2 nm (Or.inr hnm1)

/-- An appended item is a member of the sorted queue. -/
theorem mem_sortQueue_append (q : List QueueItem) (item : QueueItem) :
    item ∈ sortQueue (q ++ [item]) := by
  unfold sortQueue
  rw [List.mem_insertionSort]
  exact List.mem_append_right _ (List.mem_singleton.mpr rfl)

/-- In the local-queue path (service worker unavailable), a fresh
`fetchUserLocation` call pushes its subject onto the request queue. -/
theorem fetchUserLocation_enqueues_aux (env : FetchEnv) (s : Fetcher)
    (name : String) (element : Option Nat) (sw : SWLocResult) (now : Int) (rid : Nat)
    (hname : name ≠ "")
    (hnodup : (s.requestQueue.any fun it => it.screenName == name) = false)
    (hsw : env.swAvailable = false) :
    name ∈ (fetchUserLocation env s name element sw now rid).1.requestQueue.map
      fun it => it.screenName := by
  unfold fetchUserLocation
  rw [if_neg hname]
  rw [if_neg (by rw [hnodup]; exact Bool.false_ne_true)]
  rw [if_neg (by rw [hsw]; exact Bool.false_ne_true)]
  dsimp only
  exact List.mem_map.mpr ⟨_, mem_sortQueue_append _ _, rfl⟩

/-- Claim C5: on an HTTP 429, the shared rate-limit state becomes limited
with expiry now + cooldown (300000 ms by default) and the 429 branch
notifies the service worker; the local handler resolves every queued
request with null, empties the queue, and moves the queued subjects into
the deferred queue; no new network call is made while rate limited (the
queue loop refuses to run and `makeRequest` bails out before fetching); the
cooldown timer clears the flag and starts deferred processing, whose next
step re-issues the head deferred subject into the request queue without any
new user-facing request. -/
theorem rate_limit_handling (rl : RateLimitCoordinator) (env : FetchEnv)
    (s s2 : Fetcher) (now now2 : Int) (name name2 : String) (body : APIResponse)
    (ok : Bool) (resp2 : TransportResp) :
    ((rl.setRateLimited true now).isRateLimited = true) ∧
    ((rl.setRateLimited true now).rateLimitExpiry = some (now + rl.cooldownDuration)) ∧
    (RateLimitCoordinator.init.cooldownDuration = 300000) ∧
    (s.hasHeaders = true → s.rateLimited = false → env.swAvailable = true →
      FEvent.swSetRateLimit true ∈
        (makeRequest env s name (TransportResp.http 429 ok body) now).2.2) ∧
    ((handleRateLimit env s now).1.requestQueue = []) ∧
    ((handleRateLimit env s now).1.rateLimited = true) ∧
    ((handleRateLimit env s now).1.fetcherState = FState.rateLimited) ∧
    (∀ it ∈ s.requestQueue,
      FEvent.promiseResolved it.rid none ∈ (handleRateLimit env s now).2) ∧
    ((∀ m ∈ s.deferredUsernames, m ∈ s.deferredQueue.map fun d => d.screenName) →
      ∀ it ∈ s.requestQueue,
        it.screenName ∈ (handleRateLimit env s now).1.deferredUsernames ∧
        it.screenName ∈ (handleRateLimit env s now).1.deferredQueue.map
          fun d => d.screenName) ∧
    (s2.rateLimited = true → processQueueRuns s2 = false) ∧
    (s2.rateLimited = true →
      makeRequest env s2 name2 resp2 now2 = (s2, none, [])) ∧
    ((cooldownEnd env s2).1.rateLimited = false) ∧
    (s2.processingDeferred = false → s2.paused = false → s2.deferredQueue ≠ [] →
      (cooldownEnd env s2).1.processingDeferred = true) ∧
    (∀ sw rid item restDq,
      s2.processingDeferred = true → s2.rateLimited = false → s2.paused = false →
      s2.userIdle = true →
      reprioritizeDeferredQueue env s2.deferredQueue = item :: restDq →
      (match item.element with | some e => env.inDom e | none => true) = true →
      item.screenName ≠ "" →
      (s2.requestQueue.any fun it => it.screenName == item.screenName) = false →
      env.swAvailable = false →
      (FEvent.deferredProcessing item.screenName ∈
          (processDeferredItem env s2 now2 sw rid).2 ∧
        item.screenName ∈
          (processDeferredItem env s2 now2 sw rid).1.requestQueue.map
            fun it => it.screenName)) := by
  have hpres := deferredFold_preserves now
    (s.requestQueue.map fun it => (it.screenName, it.element))
    { s with rateLimited := true, fetcherState := FState.rateLimited,
             processingDeferred := false, requestQueue := [] }
  refine ⟨?_, ?_, ?_, ?_, ?_, ?_, ?_, ?_, ?_, ?_, ?_, ?_, ?_, ?_⟩
  · unfold RateLimitCoordinator.setRateLimited
    rfl
  · unfold RateLimitCoordinator.setRateLimited
    rfl
  · rfl
  · intro hh hrl hsw
    unfold makeRequest
    simp [hh, hrl, hsw]
  · unfold handleRateLimit addToDeferredQueue pauseDeferredProcessing
    exact hpres.1
  · unfold handleRateLimit addToDeferredQueue pauseDeferredProcessing
    exact hpres.2.1
  · unfold handleRateLimit addToDeferredQueue pauseDeferredProcessing
    exact hpres.2.2.1
  · intro it hit
    unfold handleRateLimit
    rw [List.mem_flatMap]
    exact ⟨it, hit, by simp⟩
  · intro hinv it hit
    have hfold := deferredFold_mem now
      (s.requestQueue.map fun x => (x.screenName, x.element))
      { s with rateLimited := true, fetcherState := FState.rateLimited,
               processingDeferred := false, requestQueue := [] } hinv
    have hu := hfold.2 it.screenName
      (Or.inl ⟨it.element, List.mem_map_of_mem _ hit⟩)
    have hq := hfold.1 it.screenName hu
    constructor
    · unfold handleRateLimit addToDeferredQueue pauseDeferredProcessing
      exact hu
    · unfold handleRateLimit addToDeferredQueue pauseDeferredProcessing
      dsimp only
      rw [List.mem_map] at hq ⊢
      obtain ⟨d, hd, hds⟩ := hq
      refine ⟨d, ?_, hds⟩
      unfold reprioritizeDeferredQueue
      rw [List.mem_insertionSort]
      exact hd
  · intro hrl2
    unfold processQueueRuns
    rw [hrl2]
    simp
  · intro hrl2
    unfold makeRequest
    by_cases hh2 : s2.hasHeaders <;> simp [hh2, hrl2]
  · unfold cooldownEnd startDeferredProcessing
    dsimp only
    split
    · split
      · rfl
      · split
        · rfl
        · rfl
    · rfl
  · intro hpd hpause hne
    have hlen : 0 < s2.deferredQueue.length := List.length_pos.mpr hne
    have hemp : s2.deferredQueue.isEmpty = false := by
      rw [List.isEmpty_eq_false]
      exact hne
    unfold cooldownEnd startDeferredProcessing
    simp [hpd, hpause, hlen, hemp]
  · intro sw rid item restDq hpd hrl2 hpause hidle hdq hdom hname hnodup hsw
    have hne : s2.deferredQueue.isEmpty = false := by
      rw [List.isEmpty_eq_false]
      intro hempty
      rw [hempty] at hdq
      cases hdq
    have hdet : (match item.element with
        | some e => !env.inDom e
        | none => false) = false := by
      cases helem : item.element with
      | none => rfl
      | some e =>
        have hd : env.inDom e = true := by
          rw [helem] at hdom
          simpa using hdom
        simp [hd]
    have hfetch := fetchUserLocation_enqueues_aux env
      { s2 with
          deferredQueue := restDq
          deferredUsernames := s2.deferredUsernames.filter fun n => n ≠ item.screenName
          rateLimited := false
          processingDeferred := true
          paused := false
          userIdle := true }
      item.screenName item.element sw now2 rid hname (by simpa using hnodup) hsw
    unfold processDeferredItem
    rw [hpd, hrl2, hpause, hidle, hdq]
    simp only [Bool.not_true, Bool.false_or, Bool.or_self, Bool.false_eq_true, if_false,
      hne, hdet, Bool.false_and]
    constructor
    · exact List.mem_cons_self _ _
    · simp only [Fetcher.untrackElement]
      exact hfetch

/-- Witness for C5: with one request for alice (continuation 4) queued, the
rate-limit handler empties the queue, resolves continuation 4 with null,
and defers alice. -/
theorem rate_limit_handling_witness :
    ((handleRateLimit ⟨fun _ => false, fun _ => false, fun _ => true, false⟩
        { Fetcher.init with requestQueue := [⟨"alice", 4, PRIORITY_DEFAULT, 1, none⟩] }
        100).1.requestQueue = []) ∧
    (FEvent.promiseResolved 4 none ∈
      (handleRateLimit ⟨fun _ => false, fun _ => false, fun _ => true, false⟩
        { Fetcher.init with requestQueue := [⟨"alice", 4, PRIORITY_DEFAULT, 1, none⟩] }
        100).2) ∧
    ("alice" ∈ (handleRateLimit ⟨fun _ => false, fun _ => false, fun _ => true, false⟩
        { Fetcher.init with requestQueue := [⟨"alice", 4, PRIORITY_DEFAULT, 1, none⟩] }
        100).1.deferredUsernames) := by
  have h := rate_limit_handling RateLimitCoordinator.init
    ⟨fun _ => false, fun _ => false, fun _ => true, false⟩
    { Fetcher.init with requestQueue := [⟨"alice", 4, PRIORITY_DEFAULT, 1, none⟩] }
    Fetcher.init 100 0 "x" "y" ⟨false, none⟩ false TransportResp.netError
  refine ⟨h.2.2.2.2.1, ?_, ?_⟩
  · exact h.2.2.2.2.2.2.2.1 ⟨"alice", 4, PRIORITY_DEFAULT, 1, none⟩ (by decide)
  · exact (h.2.2.2.2.2.2.2.2.1 (by intro m hm; simp [Fetcher.init] at hm)
      ⟨"alice", 4, PRIORITY_DEFAULT, 1, none⟩ (by decide)).1

/-- Claim C6 (amended): when the remote confirms a subject has no data, the
fetcher resolves null and posts the marker location string "undefined" with
accuracy false; the content-script listener writes exactly that marker to
the cache, producing an entry distinct from a miss that also passes the
persistence load filter (which drops only null locations); while the marker
is unexpired, a request-location call for the subject is served from cache
and grants no fetch.  The marker is an ordinary TTL-governed entry, not a
permanent one. -/
theorem no_data_marker_cached (env : FetchEnv) (s : Fetcher) (name : String)
    (status : Int) (body : APIResponse) (now : Int) (sw : SWState) (tab : Nat)
    (w t tl D : Int) :
    (s.hasHeaders = true → s.rateLimited = false → status ≠ 429 →
      (validateAPIResponse body).accountBasedIn = none →
      FEvent.postFetchResponse name (some "undefined") false ∈
          (makeRequest env s name (TransportResp.http status true body) now).2.2 ∧
        (makeRequest env s name (TransportResp.http status true body) now).2.1 = none) ∧
    (isValidUsernameFormat name = true →
      handleFetchResponseMsg name (some "undefined") false =
        HandlerAction.cacheSet name "undefined" false) ∧
    ((sw.cache.set name "undefined" false w).memoryCache name =
      some ⟨"undefined", false, w⟩) ∧
    (w + D ≠ 0 → tl < w + D →
      loadKeeps ⟨some "undefined", false, w + D, w⟩ tl = true) ∧
    (sw.cache.memoryCache name = some ⟨"undefined", false, w⟩ →
      t < w + sw.cache.ttl →
      (handleRequestLocation sw name tab t).2.1 =
        LocResponse.cachedR (some ("undefined", false))) := by
  refine ⟨?_, ?_, ?_, ?_, ?_⟩
  · intro hh hrl h429 hval
    unfold makeRequest
    simp [hh, hrl, h429, hval]
  · intro hu
    have hne : name ≠ "" := by
      intro h0
      rw [h0] at hu
      exact absurd hu (by decide)
    unfold handleFetchResponseMsg
    rw [hu]
    simp only [Bool.not_true, Bool.false_eq_true, if_false]
    rw [if_pos (⟨hne, by decide⟩ : name ≠ "" ∧ ("undefined" : String) ≠ "")]
  · unfold UnifiedCache.set
    simp
  · intro hexp hlt
    unfold loadKeeps
    simp only [Bool.and_eq_true, bne_iff_ne, decide_eq_true_eq]
    refine ⟨⟨hexp, hlt⟩, by decide⟩
  · intro hmem ht
    have hhas : sw.cache.has name t = (true, sw.cache) := by
      unfold UnifiedCache.has
      rw [hmem]
      dsimp only
      rw [if_neg (by omega)]
    have hget : sw.cache.get name t = (some ("undefined", false), sw.cache) := by
      unfold UnifiedCache.get
      rw [hhas]
      simp [hmem]
    unfold handleRequestLocation
    simp [hhas, hget]

/-- Witness for the amended C6: the listener caches the marker for alice,
and a later request inside the TTL window is served from cache. -/
theorem no_data_marker_cached_witness :
    (handleFetchResponseMsg "alice" (some "undefined") false =
      HandlerAction.cacheSet "alice" "undefined" false) ∧
    ((handleRequestLocation
        ⟨UnifiedCache.init.set "alice" "undefined" false 0,
         RequestDeduplicator.init, RateLimitCoordinator.init⟩
        "alice" 1 100).2.1 = LocResponse.cachedR (some ("undefined", false))) := by
  have h := no_data_marker_cached
    ⟨fun _ => false, fun _ => false, fun _ => true, false⟩
    Fetcher.init "alice" 200 ⟨false, none⟩ 0
    ⟨UnifiedCache.init.set "alice" "undefined" false 0,
     RequestDeduplicator.init, RateLimitCoordinator.init⟩
    1 0 100 0 0
  exact ⟨h.2.1 (by decide), h.2.2.2.2 (by decide) (by decide)⟩

/-- Counterexample to C6 as stated: the no-data marker is not permanent.
With the default 30 day TTL, a marker written at time 0 is evicted by the
read at time 2592000000 and the request-location call then grants
shouldFetch — the subject is fetched again. -/
theorem no_data_marker_not_permanent_counterexample :
    ((handleRequestLocation
        ⟨UnifiedCache.init.set "alice" "undefined" false 0,
         RequestDeduplicator.init, RateLimitCoordinator.init⟩
        "alice" 1 2592000000).2.1 = LocResponse.shouldFetchR) ∧
    ((handleRequestLocation
        ⟨UnifiedCache.init.set "alice" "undefined" false 0,
         RequestDeduplicator.init, RateLimitCoordinator.init⟩
        "alice" 1 2592000000).1.cache.memoryCache "alice" = none) := by
  exact ⟨by decide, by decide⟩

end Xflags
